import Mathlib

/-!
Shallow embedding of the gatewarden license-validation library
(signing-string construction, signature-header parsing, digest and
freshness checks, the verification pipeline, the authenticated cache
record, the access policy and the manager orchestration), together with
theorems about the embedded definitions.

Cryptographic kernels and external parsers (SHA-256, Ed25519 point
arithmetic, base64, RFC 2822 / RFC 3339 dates, serde JSON) are
abstracted as explicit function parameters collected in `Prims`; every
piece of control flow, error routing and arithmetic is translated
directly from the Rust source.

Conventions: byte strings (response bodies) are modelled as `String`
(valid UTF-8); clock instants (`DateTime<Utc>`) as `Int` seconds since
the epoch, so `signed_duration_since(..).num_seconds()` is plain
subtraction; `Duration::as_secs()` values as `Nat`.
-/

namespace Gatewarden

/-- ASCII lower-casing of a character, as `str::to_lowercase` acts on the
ASCII range (header keys and HTTP methods in this library are ASCII). -/
def charToLower (c : Char) : Char :=
  if 65 ≤ c.toNat ∧ c.toNat ≤ 90 then Char.ofNat (c.toNat + 32) else c

/-- ASCII lower-casing of a string (model of `str::to_lowercase`). -/
def strToLower (s : String) : String :=
  ⟨s.data.map charToLower⟩

/-- Drop leading and trailing whitespace from a character list
(model of `str::trim`). -/
def trimChars (cs : List Char) : List Char :=
  ((cs.dropWhile fun c => c.isWhitespace).reverse.dropWhile
    fun c => c.isWhitespace).reverse

/-- Model of `str::trim` on strings. -/
def strTrim (s : String) : String :=
  ⟨trimChars s.data⟩

/-- Model of Rust's `as i64` cast applied to a `u64` value: values below
`2^63` are unchanged, larger ones wrap around to negative. -/
def u64_as_i64 (n : Nat) : Int :=
  if n % 2 ^ 64 < 2 ^ 63 then ((n % 2 ^ 64 : Nat) : Int)
  else ((n % 2 ^ 64 : Nat) : Int) - 2 ^ 64

/-- Decode a single hex digit (model of the `hex` crate's digit table). -/
def hexDigit (c : Char) : Option Nat :=
  if '0' ≤ c ∧ c ≤ '9' then some (c.toNat - 48)
  else if 'a' ≤ c ∧ c ≤ 'f' then some (c.toNat - 97 + 10)
  else if 'A' ≤ c ∧ c ≤ 'F' then some (c.toNat - 65 + 10)
  else none

/-- Decode a list of hex characters into bytes; fails on an odd length or
a non-hex character (model of `hex::decode`). -/
def hexDecodeList : List Char → Option (List Nat)
  | [] => some []
  | [_] => none
  | c1 :: c2 :: rest =>
    match hexDigit c1, hexDigit c2, hexDecodeList rest with
    | some h, some l, some bs => some ((h * 16 + l) :: bs)
    | _, _, _ => none

/-- Model of `hex::decode` on a string. -/
def hexDecode (s : String) : Option (List Nat) :=
  hexDecodeList s.data

/-- The error sum type of `src/errors.rs` (`GatewardenError`). Payload
strings carry the formatted messages; the constructors `CacheIo` and
`MeterIo` model the source's cache and meter I/O error variants. -/
inductive GwError where
  | ConfigError (msg : String)
  | SignatureMissing
  | SignatureInvalid
  | DigestMismatch
  | ResponseTooOld (age_seconds : Int)
  | ResponseFromFuture
  | ProtocolError (msg : String)
  | KeygenTransport (msg : String)
  | CacheIo (msg : String)
  | CacheTampered
  | CacheExpired
  | MissingLicense
  | InvalidLicense
  | EntitlementMissing (code : String)
  | UsageLimitExceeded
  | MeterIo (msg : String)
deriving DecidableEq, Repr

end Gatewarden

deriving instance DecidableEq for Except

namespace Gatewarden

/-- `matches!(e, GatewardenError::KeygenTransport(_))` from
`LicenseManager::validate_offline`. -/
def GwError.isTransport : GwError → Bool
  | .KeygenTransport _ => true
  | _ => false

/-- Abstracted external primitives: cryptographic kernels and library
parsers used by the source but implemented outside this repository
(`sha2`, `ed25519_dalek`, `base64`, `chrono`, `serde_json`). Each field
is a pure function, matching the deterministic behaviour of the
corresponding library call. -/
structure Prims where
  /-- `sha256_b64`: standard base64 of the SHA-256 of the body bytes. -/
  sha256B64 : String → String
  /-- `hex::encode(Sha256::digest(..))` used by `hash_license_key`. -/
  sha256Hex : String → String
  /-- `base64::engine::general_purpose::STANDARD.decode`. -/
  b64decode : String → Option (List Nat)
  /-- Whether `VerifyingKey::from_bytes` succeeds on 32 key bytes. -/
  edKeyOk : List Nat → Bool
  /-- `VerifyingKey::verify`: key bytes, message, 64 signature bytes. -/
  edVerify : List Nat → String → List Nat → Bool
  /-- `DateTime::parse_from_rfc2822`, result in epoch seconds. -/
  parseRfc2822 : String → Option Int
  /-- `DateTime::parse_from_rfc3339`, result in epoch seconds. -/
  parseRfc3339 : String → Option Int

/-! ### `src/crypto/digest.rs` -/

/-- `sha256_b64(body)` — base64 of the SHA-256 of the body (kernel
abstracted in `Prims`). -/
def sha256_b64 (p : Prims) (body : String) : String :=
  p.sha256B64 body

/-- `format_digest_header(body)` — `"sha-256=" + sha256_b64(body)`. -/
def format_digest_header (p : Prims) (body : String) : String :=
  "sha-256=" ++ sha256_b64 p body

/-- `parse_digest_header(header)` — trim, then accept exactly a
`sha-256=` or `SHA-256=` prefix and return the remainder. -/
def parse_digest_header (header : String) : Option String :=
  let h := trimChars header.data
  if h.take 8 = "sha-256=".data then some ⟨h.drop 8⟩
  else if h.take 8 = "SHA-256=".data then some ⟨h.drop 8⟩
  else none

/-- `verify_digest(body, digest_header)` — absent header succeeds;
a malformed or non-matching header is `DigestMismatch`. -/
def verify_digest (p : Prims) (body : String) (digest_header : Option String) :
    Except GwError Unit :=
  match digest_header with
  | none => .ok ()
  | some header =>
    match parse_digest_header header with
    | none => .error .DigestMismatch
    | some expected_b64 =>
      if sha256_b64 p body ≠ expected_b64 then .error .DigestMismatch
      else .ok ()

/-! ### `src/crypto/signing.rs` -/

/-- `build_signing_string(method, path, host, date, digest_header)` —
newline-separated components, lower-cased method, the `digest:` line
only when a digest header is present, no separator appended at the end. -/
def build_signing_string (method path host date : String)
    (digest_header : Option String) : String :=
  let base := "(request-target): " ++ strToLower method ++ " " ++ path ++
    "\nhost: " ++ host ++ "\ndate: " ++ date
  match digest_header with
  | some digest => base ++ "\ndigest: " ++ digest
  | none => base

/-! ### `src/crypto/verify.rs` -/

/-- `ParsedSignatureHeader`. -/
structure ParsedSignatureHeader where
  key_id : Option String
  algorithm : String
  signature : String
  headers : List String
deriving DecidableEq, Repr

/-- Split a character list at the first occurrence of `sep`
(model of `str::find` + index slicing in `parse_signature_header`);
`none` when `sep` does not occur. -/
def splitFirst (sep : Char) : List Char → Option (List Char × List Char)
  | [] => none
  | c :: rest =>
    if c = sep then some ([], rest)
    else match splitFirst sep rest with
      | some (l, r) => some (c :: l, r)
      | none => none

/-- Split a character list on every occurrence of `sep`
(model of `str::split`, which keeps empty segments). -/
def splitAll (sep : Char) : List Char → List (List Char)
  | [] => [[]]
  | c :: rest =>
    if c = sep then [] :: splitAll sep rest
    else match splitAll sep rest with
      | [] => [[c]]
      | l :: ls => (c :: l) :: ls

/-- Strip a single pair of surrounding double quotes from the value:
first a leading quote, then a trailing quote from the remainder, keeping
the original value whenever either is missing. -/
def stripQuotes (value : String) : String :=
  match value.data with
  | '"' :: rest =>
    if rest.getLast? = some '"' then ⟨rest.dropLast⟩ else value
  | _ => value

/-- One `HashMap::insert` step: the new binding replaces any earlier
binding of the same key (last write wins). -/
def mapInsert (m : List (String × String)) (k v : String) :
    List (String × String) :=
  (k, v) :: m.filter (fun p => p.1 ≠ k)

/-- `HashMap::get`. -/
def mapGet (m : List (String × String)) (k : String) : Option String :=
  (m.find? (fun p => p.1 = k)).map (·.2)

/-- Split a character list at every whitespace character, keeping empty
pieces (companion of `splitAll` with a predicate). -/
def splitAllWs : List Char → List (List Char)
  | [] => [[]]
  | c :: rest =>
    if c.isWhitespace then [] :: splitAllWs rest
    else match splitAllWs rest with
      | [] => [[c]]
      | l :: ls => (c :: l) :: ls

/-- Split a character list on whitespace, discarding empty pieces
(model of `str::split_whitespace`). -/
def splitWhitespace (cs : List Char) : List String :=
  ((splitAllWs cs).filter (· ≠ [])).map String.mk

/-- The key=value accumulation loop of `parse_signature_header`: split
the header on commas; for each segment, trim it, split at the first `=`,
trim both sides, lower-case the key, strip one pair of quotes from the
value; segments without `=` are skipped. -/
def sigHeaderParts (header : String) : List (String × String) :=
  (splitAll ',' header.data).foldl
    (fun m seg =>
      match splitFirst '=' (trimChars seg) with
      | some (l, r) =>
        mapInsert m (strToLower ⟨trimChars l⟩) (stripQuotes ⟨trimChars r⟩)
      | none => m)
    []

/-- `parse_signature_header(header)` — requires an `algorithm` key equal
to `"ed25519"` and a `signature` key; `keyid` is optional and `headers`
is split on whitespace (empty when absent). -/
def parse_signature_header (header : String) :
    Except GwError ParsedSignatureHeader :=
  let parts := sigHeaderParts header
  match mapGet parts "algorithm" with
  | none => .error (.ProtocolError "Missing algorithm in signature header")
  | some algorithm =>
    if algorithm ≠ "ed25519" then
      .error (.ProtocolError ("Unsupported signature algorithm: " ++
        algorithm ++ " (expected ed25519)"))
    else
      match mapGet parts "signature" with
      | none => .error (.ProtocolError "Missing signature in signature header")
      | some signature =>
        .ok { key_id := mapGet parts "keyid"
              algorithm := algorithm
              signature := signature
              headers :=
                match mapGet parts "headers" with
                | some h => splitWhitespace h.data
                | none => [] }

/-- `decode_public_key(hex_key)` — hex-decode, require 32 bytes, then
`VerifyingKey::from_bytes`. The process-wide key cache of the source is
semantically transparent (decoding is deterministic and the cache is
populated only with successfully decoded keys), so it is not modelled. -/
def decode_public_key (p : Prims) (hex_key : String) :
    Except GwError (List Nat) :=
  match hexDecode hex_key with
  | none => .error (.ConfigError "Invalid public key hex")
  | some bytes =>
    if bytes.length ≠ 32 then
      .error (.ConfigError "Public key must be 32 bytes")
    else if p.edKeyOk bytes then .ok bytes
    else .error (.ConfigError "Invalid Ed25519 public key")

/-- `verify_ed25519(signature_b64, signing_string, verifying_key)` —
base64 failure is a `ProtocolError`, a length other than 64 bytes and a
failed curve check are `SignatureInvalid`. -/
def verify_ed25519 (p : Prims) (signature_b64 signing_string : String)
    (verifying_key : List Nat) : Except GwError Unit :=
  match p.b64decode signature_b64 with
  | none => .error (.ProtocolError "Invalid signature base64")
  | some sig_bytes =>
    if sig_bytes.length ≠ 64 then .error .SignatureInvalid
    else if p.edVerify verifying_key signing_string sig_bytes then .ok ()
    else .error .SignatureInvalid

/-! ### `src/crypto/freshness.rs` -/

/-- `MAX_RESPONSE_AGE_SECONDS = 5 * 60`. -/
def MAX_RESPONSE_AGE_SECONDS : Int := 5 * 60

/-- `MAX_FUTURE_TOLERANCE_SECONDS = 60`. -/
def MAX_FUTURE_TOLERANCE_SECONDS : Int := 60

/-- `parse_rfc2822_date(date_str)` — chrono parse abstracted in `Prims`;
a failure is a `ProtocolError` embedding the offending string. -/
def parse_rfc2822_date (p : Prims) (date_str : String) :
    Except GwError Int :=
  match p.parseRfc2822 date_str with
  | some dt => .ok dt
  | none => .error (.ProtocolError ("Invalid date header: " ++ date_str))

/-- `check_freshness(response_date, clock)` — reject ages above
`MAX_RESPONSE_AGE_SECONDS` and below `-MAX_FUTURE_TOLERANCE_SECONDS`. -/
def check_freshness (response_date now : Int) : Except GwError Unit :=
  let age_seconds := now - response_date
  if age_seconds > MAX_RESPONSE_AGE_SECONDS then
    .error (.ResponseTooOld age_seconds)
  else if age_seconds < -MAX_FUTURE_TOLERANCE_SECONDS then
    .error .ResponseFromFuture
  else .ok ()

/-- `check_date_freshness(date_header, clock)` — parse then check,
returning the parsed date. -/
def check_date_freshness (p : Prims) (date_header : String) (now : Int) :
    Except GwError Int := do
  let response_date ← parse_rfc2822_date p date_header
  let _ ← check_freshness response_date now
  return response_date

/-! ### `src/client/http.rs` (the captured response) -/

/-- `KeygenResponse` — status, the captured `Date`, `Keygen-Signature`
and `Digest` headers, the raw body (modelled as a UTF-8 string) and the
request path and host used. -/
structure KeygenResponse where
  status : Nat
  date : Option String
  signature : Option String
  digest : Option String
  body : String
  request_path : String
  host : String
deriving DecidableEq, Repr

/-! ### `src/crypto/pipeline.rs` -/

/-- `verify_response(response, public_key_hex, clock)` — fail closed on
a missing signature or date header, verify the digest, parse the
signature header, decode the public key, rebuild the signing string with
method `post`, verify Ed25519, then enforce freshness. -/
def verify_response (p : Prims) (response : KeygenResponse)
    (public_key_hex : String) (now : Int) : Except GwError Unit := do
  let signature_header ←
    match response.signature with
    | none => Except.error GwError.SignatureMissing
    | some s => Except.ok s
  let date_header ←
    match response.date with
    | none => Except.error GwError.SignatureMissing
    | some d => Except.ok d
  let _ ← verify_digest p response.body response.digest
  let parsed_sig ← parse_signature_header signature_header
  let verifying_key ← decode_public_key p public_key_hex
  let signing_string := build_signing_string "post" response.request_path
    response.host date_header response.digest
  let _ ← verify_ed25519 p parsed_sig.signature signing_string verifying_key
  let _ ← check_date_freshness p date_header now
  return ()

/-! ### `src/cache/format.rs` -/

/-- `CacheRecord` — the persisted fields needed to re-verify a response:
original `date`, `signature` and optional `digest` headers, the body,
the capture instant and the request path and host. -/
structure CacheRecord where
  date : String
  signature : String
  digest : Option String
  body : String
  cached_at : Int
  request_path : String
  host : String
deriving DecidableEq, Repr

/-- `CacheRecord::new(..)` — stores the fields verbatim and captures
`cached_at = clock.now_utc()`. -/
def CacheRecord.new (date signature : String) (digest : Option String)
    (body request_path host : String) (now : Int) : CacheRecord :=
  { date := date, signature := signature, digest := digest, body := body
    cached_at := now, request_path := request_path, host := host }

/-- Steps 1–5 of `CacheRecord::verify`: parse the stored signature
header, decode the public key, rebuild the signing string from the
stored fields, verify Ed25519 (failure mapped to `CacheTampered`), and
re-verify the digest against the stored body when present (failure
mapped to `CacheTampered`). -/
def CacheRecord.crypto_checks (p : Prims) (r : CacheRecord)
    (public_key_hex : String) : Except GwError Unit := do
  let parsed_sig ← parse_signature_header r.signature
  let verifying_key ← decode_public_key p public_key_hex
  let signing_string := build_signing_string "post" r.request_path r.host
    r.date r.digest
  let _ ←
    match verify_ed25519 p parsed_sig.signature signing_string verifying_key with
    | .error _ => Except.error GwError.CacheTampered
    | .ok _ => Except.ok ()
  match r.digest with
  | some digest_header =>
    match verify_digest p r.body (some digest_header) with
    | .error _ => Except.error GwError.CacheTampered
    | .ok _ => Except.ok ()
  | none => return ()

/-- `CacheRecord::verify(public_key_hex, offline_grace, clock)` — the
cryptographic re-checks (steps 1–5), then the grace check on
`age = now − cached_at` against `offline_grace.as_secs() as i64`:
`age > grace` is `CacheExpired`, a negative age is `CacheTampered`. -/
def CacheRecord.verify (p : Prims) (r : CacheRecord)
    (public_key_hex : String) (offline_grace : Nat) (now : Int) :
    Except GwError Unit := do
  let _ ← r.crypto_checks p public_key_hex
  let age := now - r.cached_at
  let grace_secs := u64_as_i64 offline_grace
  if age > grace_secs then Except.error GwError.CacheExpired
  else if age < 0 then Except.error GwError.CacheTampered
  else return ()

/-! ### `src/protocol/models.rs` -/

/-- `KeygenScopeMeta`. -/
structure KeygenScopeMeta where
  entitlements : List String
deriving DecidableEq, Repr

/-- `KeygenValidateMeta`. -/
structure KeygenValidateMeta where
  valid : Bool
  code : String
  detail : Option String
  scope : Option KeygenScopeMeta
deriving DecidableEq, Repr

/-- `KeygenLicenseAttributes`. -/
structure KeygenLicenseAttributes where
  name : Option String
  expiry : Option String
  max_uses : Option Nat
  uses : Option Nat
deriving DecidableEq, Repr

/-- `KeygenLicenseData`. -/
structure KeygenLicenseData where
  id : String
  data_type : String
  attributes : KeygenLicenseAttributes
deriving DecidableEq, Repr

/-- `KeygenValidateResponse` — the decoded JSON envelope. -/
structure KeygenValidateResponse where
  meta : KeygenValidateMeta
  data : Option KeygenLicenseData
deriving DecidableEq, Repr

/-- `LicenseState`. -/
structure LicenseState where
  valid : Bool
  entitlements : List String
  expires_at : Option Int
  max_uses : Option Nat
  current_uses : Option Nat
  code : String
  detail : Option String
deriving DecidableEq, Repr

/-- `LicenseState::from_keygen_response` — entitlements from
`meta.scope` (empty when absent), expiry parsed leniently (an
unparseable expiry is dropped, not an error), usage fields verbatim.
The Rust function returns `Result` but has no error path, so it is
modelled as a total function. -/
def LicenseState.from_keygen_response (p : Prims)
    (response : KeygenValidateResponse) : LicenseState :=
  { valid := response.meta.valid
    entitlements :=
      match response.meta.scope with
      | some s => s.entitlements
      | none => []
    expires_at :=
      response.data.bind (fun d => d.attributes.expiry) |>.bind p.parseRfc3339
    max_uses := response.data.bind (fun d => d.attributes.max_uses)
    current_uses := response.data.bind (fun d => d.attributes.uses)
    code := response.meta.code
    detail := response.meta.detail }

/-! ### `src/policy/access.rs` -/

/-- The entitlement loop of `check_access`: the first required code not
present in the state's entitlements is reported. -/
def checkEntitlements (entitlements : List String) :
    List String → Except GwError Unit
  | [] => .ok ()
  | required :: rest =>
    if entitlements.contains required then checkEntitlements entitlements rest
    else .error (.EntitlementMissing required)

/-- `check_access(state, required_entitlements)` — `InvalidLicense` when
the state is not valid, else the first missing required entitlement. -/
def check_access (state : LicenseState)
    (required_entitlements : List String) : Except GwError Unit :=
  if !state.valid then .error .InvalidLicense
  else checkEntitlements state.entitlements required_entitlements

/-- `UsageCaps`. -/
structure UsageCaps where
  monthly_limit : Option Nat
  current_uses : Option Nat
deriving DecidableEq, Repr

/-- `UsageCaps::from_license_state`. -/
def UsageCaps.from_license_state (state : LicenseState) : UsageCaps :=
  { monthly_limit := state.max_uses, current_uses := state.current_uses }

/-- `UsageCaps::allows_usage(additional_uses)`. -/
def UsageCaps.allows_usage (caps : UsageCaps) (additional_uses : Nat) : Bool :=
  match caps.monthly_limit, caps.current_uses with
  | some limit, some current => current + additional_uses ≤ limit
  | some limit, none => additional_uses ≤ limit
  | none, _ => true

/-- `check_access_with_usage(state, required, additional)` — access
check first, then the cap check (`UsageLimitExceeded` on failure). -/
def check_access_with_usage (state : LicenseState)
    (required_entitlements : List String) (additional_uses : Nat) :
    Except GwError UsageCaps := do
  let _ ← check_access state required_entitlements
  let caps := UsageCaps.from_license_state state
  if !caps.allows_usage additional_uses then
    Except.error GwError.UsageLimitExceeded
  else return caps

/-! ### `src/config.rs`, `src/cache/file.rs`, `src/manager.rs` -/

/-- `GatewardenConfig` (`offline_grace` as `Duration::as_secs()`). -/
structure GatewardenConfig where
  app_name : String
  feature_name : String
  account_id : String
  public_key_hex : String
  required_entitlements : List String
  user_agent_product : String
  cache_namespace : String
  offline_grace : Nat
deriving DecidableEq, Repr

/-- The visible contents of the cache directory: records keyed by the
license-key hash (the `.json` slot per key). -/
abbrev CacheState := List (String × CacheRecord)

/-- Replacement of the record stored under a key hash (the effect of a
successful rename over the `.json` target). -/
def storeUpdate (st : CacheState) (key_hash : String) (record : CacheRecord) :
    CacheState :=
  (key_hash, record) :: st.filter (fun e => e.1 ≠ key_hash)

/-- `hash_license_key(license_key)` — SHA-256 hex of the key bytes
(kernel abstracted in `Prims`). -/
def hash_license_key (p : Prims) (license_key : String) : String :=
  p.sha256Hex license_key

/-- `FileCache::save` — serialize, write a temp file, atomically rename
onto the `.json` target. A failure at any step (surfaced as `CacheIO`,
injected here through `saveOutcome`) leaves the visible record
unchanged, because only the final rename replaces the target; a success
replaces the stored record for the key. -/
def cache_save (saveOutcome : Option String) (st : CacheState)
    (key_hash : String) (record : CacheRecord) : Except GwError CacheState :=
  match saveOutcome with
  | some msg => .error (.CacheIo msg)
  | none => .ok (storeUpdate st key_hash record)

/-- `ValidationResult`. -/
structure ValidationResult where
  valid : Bool
  state : LicenseState
  caps : UsageCaps
  from_cache : Bool
deriving DecidableEq, Repr

/-- `LicenseManager::validate_online(license_key, key_hash)` — transport
call, `verify_response`, field extraction for caching, body decode
(`serde_json::from_str` abstracted as `pj`; the UTF-8 view `body_str`
is the identity on the `String` body model), `LicenseState` extraction,
access and cap checks, then the cache save. The pair threads the cache
state: every error arm leaves it untouched, mirroring the `?` returns of
the source, which performs no cache operation before the final save. -/
def validate_online (p : Prims)
    (pj : String → Option KeygenValidateResponse) (cfg : GatewardenConfig)
    (transport : Except GwError KeygenResponse) (saveOutcome : Option String)
    (now : Int) (key_hash : String) (st : CacheState) :
    Except GwError ValidationResult × CacheState :=
  match transport with
  | .error e => (.error e, st)
  | .ok response =>
    match verify_response p response cfg.public_key_hex now with
    | .error e => (.error e, st)
    | .ok _ =>
      let date := response.date.getD ""
      let signature := response.signature.getD ""
      let digest := response.digest
      let request_path := response.request_path
      let host := response.host
      let body_str := response.body
      match pj body_str with
      | none => (.error (.ProtocolError "Parse error"), st)
      | some keygen_response =>
        let state := LicenseState.from_keygen_response p keygen_response
        match check_access_with_usage state cfg.required_entitlements 0 with
        | .error e => (.error e, st)
        | .ok caps =>
          let cache_record := CacheRecord.new date signature digest body_str
            request_path host now
          match cache_save saveOutcome st key_hash cache_record with
          | .error e => (.error e, st)
          | .ok st' =>
            (.ok { valid := state.valid, state := state, caps := caps
                   from_cache := false }, st')

/-- `LicenseManager::validate_offline(key_hash, online_error)` — only a
`KeygenTransport` online error reaches the cache; the loaded record (the
outcome of `cache.load`, including its possible `CacheIO` failure, is
`loadResult`) is verified under the grace policy, decoded and run
through the access checks, and the result is marked `from_cache`. -/
def validate_offline (p : Prims)
    (pj : String → Option KeygenValidateResponse) (cfg : GatewardenConfig)
    (loadResult : Except GwError (Option CacheRecord))
    (online_error : GwError) (now : Int) :
    Except GwError ValidationResult :=
  if !online_error.isTransport then .error online_error
  else
    match loadResult with
    | .error e => .error e
    | .ok none => .error online_error
    | .ok (some record) =>
      match record.verify p cfg.public_key_hex cfg.offline_grace now with
      | .error e => .error e
      | .ok _ =>
        match pj record.body with
        | none => .error (.ProtocolError "Cache parse error")
        | some response =>
          let state := LicenseState.from_keygen_response p response
          match check_access_with_usage state cfg.required_entitlements 0 with
          | .error e => .error e
          | .ok caps =>
            .ok { valid := state.valid, state := state, caps := caps
                  from_cache := true }

/-- `LicenseManager::validate_key(license_key)` — reject an empty key,
hash the key, attempt online validation, and on an online error hand the
error to the offline fallback. -/
def validate_key (p : Prims)
    (pj : String → Option KeygenValidateResponse) (cfg : GatewardenConfig)
    (transport : Except GwError KeygenResponse) (saveOutcome : Option String)
    (loadResult : Except GwError (Option CacheRecord)) (now : Int)
    (license_key : String) (st : CacheState) :
    Except GwError ValidationResult × CacheState :=
  if license_key = "" then (.error .MissingLicense, st)
  else
    let key_hash := hash_license_key p license_key
    match validate_online p pj cfg transport saveOutcome now key_hash st with
    | (.ok result, st') => (.ok result, st')
    | (.error online_error, st') =>
      (validate_offline p pj cfg loadResult online_error now, st')

/-! ## Theorems -/

/-- C7: for every parsed response date and clock instant, with
`age = now − response_date` in signed seconds, `check_freshness` returns
`ResponseTooOld` carrying that age exactly when `age > 300`, returns
`ResponseFromFuture` exactly when `age < −60`, and succeeds otherwise;
`age = 300` and `age = −60` are both accepted. -/
theorem check_freshness_boundaries (response_date now : Int) :
    (check_freshness response_date now =
        .error (.ResponseTooOld (now - response_date)) ↔
      300 < now - response_date) ∧
    (check_freshness response_date now = .error .ResponseFromFuture ↔
      now - response_date < -60) ∧
    (check_freshness response_date now = .ok () ↔
      -60 ≤ now - response_date ∧ now - response_date ≤ 300) ∧
    (∀ a, check_freshness response_date now = .error (.ResponseTooOld a) →
      a = now - response_date) := by
  unfold check_freshness MAX_RESPONSE_AGE_SECONDS MAX_FUTURE_TOLERANCE_SECONDS
  dsimp only
  split_ifs with h1 h2 <;>
    refine ⟨⟨fun htoo => ?_, fun htoo => ?_⟩,
      ⟨fun hfut => ?_, fun hfut => ?_⟩, ⟨fun hok => ?_, fun hok => ?_⟩,
      fun a ha => ?_⟩ <;>
    simp_all <;> omega

/-- Witness for `check_freshness_boundaries` at the boundary ages
301, 300 and −61. -/
theorem check_freshness_boundaries_witness :
    check_freshness 0 301 = .error (.ResponseTooOld 301) ∧
    check_freshness 0 300 = .ok () ∧
    check_freshness 0 (-61) = .error .ResponseFromFuture :=
  ⟨(check_freshness_boundaries 0 301).1.mpr (by decide),
   (check_freshness_boundaries 0 300).2.2.1.mpr (by constructor <;> decide),
   (check_freshness_boundaries 0 (-61)).2.1.mpr (by decide)⟩

/-- C3: for every response whose date header or signature header is
absent, `verify_response` returns `SignatureMissing`, for all values of
the remaining fields, every public key, every clock instant and every
choice of external primitives. -/
theorem verify_response_fail_closed (p : Prims) (r : KeygenResponse)
    (public_key_hex : String) (now : Int)
    (h : r.date = none ∨ r.signature = none) :
    verify_response p r public_key_hex now = .error .SignatureMissing := by
  unfold verify_response
  rcases h with h | h
  · cases hs : r.signature with
    | none => rfl
    | some s => simp only [hs, h]; rfl
  · simp only [h]; rfl

/-- Witness for `verify_response_fail_closed`: a response with a
signature header but no date header is rejected as `SignatureMissing`. -/
theorem verify_response_fail_closed_witness :
    ({ status := 200, date := none, signature := some "x", digest := none
       body := "b", request_path := "/t", host := "h" } :
        KeygenResponse).date = none ∧
    verify_response
      { sha256B64 := fun _ => "", sha256Hex := fun _ => ""
        b64decode := fun _ => none, edKeyOk := fun _ => true
        edVerify := fun _ _ _ => true, parseRfc2822 := fun _ => none
        parseRfc3339 := fun _ => none }
      { status := 200, date := none, signature := some "x", digest := none
        body := "b", request_path := "/t", host := "h" } "pk" 0 =
      .error .SignatureMissing :=
  ⟨rfl, verify_response_fail_closed _ _ "pk" 0 (Or.inl rfl)⟩

/-- C10: when a cache record's digest field is `none`,
`CacheRecord.verify` never reads the body — two records identical except
in their bodies verify identically; in particular a record whose body
was replaced still passes when the unmutated record does. -/
theorem cacheVerify_ignores_body_without_digest (p : Prims)
    (public_key_hex : String) (offline_grace : Nat) (now : Int)
    (r : CacheRecord) (b1 b2 : String) (h : r.digest = none) :
    CacheRecord.verify p { r with body := b1 } public_key_hex
        offline_grace now =
      CacheRecord.verify p { r with body := b2 } public_key_hex
        offline_grace now := by
  unfold CacheRecord.verify CacheRecord.crypto_checks
  simp only [h]

/-- Witness for `cacheVerify_ignores_body_without_digest` on a concrete
digest-free record and two distinct bodies. -/
theorem cacheVerify_ignores_body_without_digest_witness :
    ({ date := "D", signature := "algorithm=ed25519, signature=B"
       digest := none, body := "b0", cached_at := 0, request_path := "/p"
       host := "h" } : CacheRecord).digest = none ∧
    CacheRecord.verify
        { sha256B64 := fun _ => "", sha256Hex := fun _ => ""
          b64decode := fun _ => none, edKeyOk := fun _ => true
          edVerify := fun _ _ _ => true, parseRfc2822 := fun _ => none
          parseRfc3339 := fun _ => none }
        { date := "D", signature := "algorithm=ed25519, signature=B"
          digest := none, body := "BODY1", cached_at := 0
          request_path := "/p", host := "h" } "pk" 60 0 =
      CacheRecord.verify
        { sha256B64 := fun _ => "", sha256Hex := fun _ => ""
          b64decode := fun _ => none, edKeyOk := fun _ => true
          edVerify := fun _ _ _ => true, parseRfc2822 := fun _ => none
          parseRfc3339 := fun _ => none }
        { date := "D", signature := "algorithm=ed25519, signature=B"
          digest := none, body := "BODY2", cached_at := 0
          request_path := "/p", host := "h" } "pk" 60 0 :=
  ⟨rfl,
   cacheVerify_ignores_body_without_digest _ "pk" 60 0
     { date := "D", signature := "algorithm=ed25519, signature=B"
       digest := none, body := "b0", cached_at := 0, request_path := "/p"
       host := "h" } "BODY1" "BODY2" rfl⟩

/-- `Char.ofNat` round-trips on code points below the surrogate range. -/
theorem toNat_charOfNat_of_lt (n : Nat) (h : n < 0xd800) :
    (Char.ofNat n).toNat = n := by
  have hv : n.isValidChar := Or.inl h
  simp [Char.ofNat, hv, Char.ofNatAux, Char.toNat]
  rfl

/-- ASCII lower-casing is idempotent on characters. -/
theorem charToLower_idem (c : Char) :
    charToLower (charToLower c) = charToLower c := by
  unfold charToLower
  by_cases h : 65 ≤ c.toNat ∧ c.toNat ≤ 90
  · rw [if_pos h, if_neg]
    rw [toNat_charOfNat_of_lt (c.toNat + 32) (by omega)]
    omega
  · rw [if_neg h, if_neg h]

/-- ASCII lower-casing is idempotent on strings. -/
theorem strToLower_idem (s : String) :
    strToLower (strToLower s) = strToLower s := by
  unfold strToLower
  apply congrArg String.mk
  show (s.data.map charToLower).map charToLower = s.data.map charToLower
  rw [List.map_map]
  exact List.map_congr_left (fun c _ => charToLower_idem c)

/-- The last character of a concatenation comes from the second string
when that string is non-empty. -/
theorem lastChar_append (s t : String) :
    (s ++ t).data.getLast? =
      if t.data = [] then s.data.getLast? else t.data.getLast? := by
  rw [String.data_append]
  split_ifs with h
  · rw [h, List.append_nil]
  · exact List.getLast?_append_of_ne_nil _ h

/-- C8 counterexample: the claim that no output of
`build_signing_string` ends with a newline fails when the digest value
(or the date value) itself ends with a newline — the builder inserts the
component verbatim. -/
theorem build_signing_string_trailing_newline_counterexample :
    (build_signing_string "post" "/x" "h" "d" (some "a\n")).data.getLast? =
        some '\n' ∧
    (build_signing_string "post" "/x" "h" "d\n" none).data.getLast? =
      some '\n' :=
  ⟨by decide, by decide⟩

/-- C8 (amended): the digest-carrying signing string is the digest-free
one followed by `"\n" ++ "digest: " ++ x`; lower-casing the method first
does not change the output; and the builder appends no trailing
newline — the output ends in a newline only when its final component
(the digest value when present, otherwise the date value) does. -/
theorem build_signing_string_canonical (m path host d x : String) :
    (∀ x', build_signing_string m path host d (some x') =
      build_signing_string m path host d none ++ "\n" ++ "digest: " ++ x') ∧
    (∀ o, build_signing_string m path host d o =
      build_signing_string (strToLower m) path host d o) ∧
    (d.data.getLast? ≠ some '\n' →
      (build_signing_string m path host d none).data.getLast? ≠
        some '\n') ∧
    (x.data.getLast? ≠ some '\n' →
      (build_signing_string m path host d (some x)).data.getLast? ≠
        some '\n') := by
  refine ⟨fun x' => ?_, fun o => ?_, fun hd => ?_, fun hx => ?_⟩
  · unfold build_signing_string
    dsimp only
    rw [String.append_assoc _ "\n" "digest: "]
    rfl
  · unfold build_signing_string
    rw [strToLower_idem]
  · unfold build_signing_string
    dsimp only
    rw [lastChar_append ("(request-target): " ++ strToLower m ++ " " ++
      path ++ "\nhost: " ++ host ++ "\ndate: ") d]
    split_ifs with h0
    · rw [lastChar_append ("(request-target): " ++ strToLower m ++ " " ++
        path ++ "\nhost: " ++ host) "\ndate: ", if_neg (by decide)]
      decide
    · exact hd
  · unfold build_signing_string
    dsimp only
    rw [lastChar_append ("(request-target): " ++ strToLower m ++ " " ++
      path ++ "\nhost: " ++ host ++ "\ndate: " ++ d ++ "\ndigest: ") x]
    split_ifs with h0
    · rw [lastChar_append ("(request-target): " ++ strToLower m ++ " " ++
        path ++ "\nhost: " ++ host ++ "\ndate: " ++ d) "\ndigest: ",
        if_neg (by decide)]
      decide
    · exact hx

/-- Witness for `build_signing_string_canonical` at concrete arguments,
discharging the no-trailing-newline hypotheses. -/
theorem build_signing_string_canonical_witness :
    ("GMT" : String).data.getLast? ≠ some '\n' ∧
    (build_signing_string "POST" "/v1/t" "api" "GMT" none).data.getLast? ≠
      some '\n' :=
  ⟨by decide,
   (build_signing_string_canonical "POST" "/v1/t" "api" "GMT" "sha-256=Q=").2.2.1
     (by decide)⟩

/-- `splitAll` never returns an empty segment list. -/
theorem splitAll_ne_nil (sep : Char) : ∀ l, splitAll sep l ≠ [] := by
  intro l
  induction l with
  | nil => simp [splitAll]
  | cons c rest ih =>
    unfold splitAll
    split_ifs with h
    · simp
    · cases hs : splitAll sep rest with
      | nil => simp
      | cons a as => simp

/-- Splitting distributes over an explicit separator occurrence. -/
theorem splitAll_append (sep : Char) (b : List Char) :
    ∀ a, splitAll sep (a ++ sep :: b) =
      splitAll sep a ++ splitAll sep b := by
  intro a
  induction a with
  | nil => simp [splitAll]
  | cons c a' ih =>
    by_cases h : c = sep
    · rw [h]
      show splitAll sep (sep :: (a' ++ sep :: b)) =
        splitAll sep (sep :: a') ++ splitAll sep b
      simp only [splitAll, if_pos rfl]
      rw [ih]
      rfl
    · show splitAll sep (c :: (a' ++ sep :: b)) =
        splitAll sep (c :: a') ++ splitAll sep b
      cases hs : splitAll sep a' with
      | nil => exact absurd hs (splitAll_ne_nil sep a')
      | cons l ls =>
        simp only [splitAll, if_neg h]
        rw [ih, hs]
        simp only [List.cons_append]

/-- A separator-free list is a single segment. -/
theorem splitAll_of_not_mem (sep : Char) :
    ∀ l, sep ∉ l → splitAll sep l = [l] := by
  intro l
  induction l with
  | nil => intro _; rfl
  | cons c rest ih =>
    intro h
    unfold splitAll
    rw [if_neg (fun hc => h (by rw [hc]; exact List.mem_cons_self _ _)),
      ih (fun hm => h (List.mem_cons_of_mem c hm))]

/-- A freshly inserted binding is the one retrieved (last write wins). -/
theorem mapGet_mapInsert_self (m : List (String × String)) (k v : String) :
    mapGet (mapInsert m k v) k = some v := by
  simp [mapGet, mapInsert, List.find?]

/-- Appending one comma-free segment to a signature header updates the
accumulated key=value map by exactly that segment's binding. -/
theorem sigHeaderParts_append_segment (header seg : String)
    (hnc : ',' ∉ seg.data) :
    sigHeaderParts (header ++ "," ++ seg) =
      match splitFirst '=' (trimChars seg.data) with
      | some (l, r) =>
        mapInsert (sigHeaderParts header) (strToLower ⟨trimChars l⟩)
          (stripQuotes ⟨trimChars r⟩)
      | none => sigHeaderParts header := by
  have hdata : (header ++ "," ++ seg).data =
      header.data ++ ',' :: seg.data := by
    rw [String.data_append, String.data_append, List.append_assoc]
    rfl
  unfold sigHeaderParts
  rw [hdata, splitAll_append, splitAll_of_not_mem _ _ hnc,
    List.foldl_append]
  simp only [List.foldl_cons, List.foldl_nil]

/-- C9 counterexample: a header whose signature parameter has an empty
value is accepted by `parse_signature_header` with signature `""`; the
claim requires a protocol error for an empty signature value. -/
theorem parse_signature_header_empty_signature_counterexample :
    parse_signature_header "algorithm=ed25519, signature=" =
      .ok { key_id := none, algorithm := "ed25519", signature := ""
            headers := [] } := by
  decide

/-- C9 (amended): every failure of `parse_signature_header` is a
protocol error; it succeeds exactly when the accumulated key=value map
binds `algorithm` to `ed25519` and binds `signature` at all (an empty
signature value is accepted); on success it returns the algorithm, the
bound signature value, the optional `keyid` and the whitespace-split
`headers` list; and when a key occurs more than once the last occurrence
wins. -/
theorem parse_signature_header_spec (header : String) :
    (∀ e, parse_signature_header header = .error e →
      ∃ msg, e = .ProtocolError msg) ∧
    ((∃ ps, parse_signature_header header = .ok ps) ↔
      (mapGet (sigHeaderParts header) "algorithm" = some "ed25519" ∧
        ∃ v, mapGet (sigHeaderParts header) "signature" = some v)) ∧
    (∀ ps, parse_signature_header header = .ok ps →
      ps.algorithm = "ed25519" ∧
      mapGet (sigHeaderParts header) "signature" = some ps.signature ∧
      ps.key_id = mapGet (sigHeaderParts header) "keyid" ∧
      ps.headers = (match mapGet (sigHeaderParts header) "headers" with
        | some h => splitWhitespace h.data
        | none => [])) ∧
    (∀ seg l r, ',' ∉ seg.data →
      splitFirst '=' (trimChars seg.data) = some (l, r) →
      mapGet (sigHeaderParts (header ++ "," ++ seg))
          (strToLower ⟨trimChars l⟩) =
        some (stripQuotes ⟨trimChars r⟩)) := by
  refine ⟨?_, ?_, ?_, ?_⟩
  · intro e he
    simp only [parse_signature_header] at he
    cases halg : mapGet (sigHeaderParts header) "algorithm" with
    | none =>
      rw [halg] at he
      exact ⟨_, ((Except.error.injEq _ _).mp he).symm⟩
    | some a =>
      rw [halg] at he
      dsimp only at he
      by_cases ha : a = "ed25519"
      · rw [if_neg (by simp [ha])] at he
        cases hsig : mapGet (sigHeaderParts header) "signature" with
        | none =>
          rw [hsig] at he
          exact ⟨_, ((Except.error.injEq _ _).mp he).symm⟩
        | some v =>
          rw [hsig] at he
          exact absurd he (by simp)
      · rw [if_pos ha] at he
        exact ⟨_, ((Except.error.injEq _ _).mp he).symm⟩
  · constructor
    · rintro ⟨ps, hps⟩
      simp only [parse_signature_header] at hps
      cases halg : mapGet (sigHeaderParts header) "algorithm" with
      | none =>
        rw [halg] at hps
        exact absurd hps (by simp)
      | some a =>
        rw [halg] at hps
        dsimp only at hps
        by_cases ha : a = "ed25519"
        · rw [if_neg (by simp [ha])] at hps
          cases hsig : mapGet (sigHeaderParts header) "signature" with
          | none =>
            rw [hsig] at hps
            exact absurd hps (by simp)
          | some v => exact ⟨by rw [ha], v, rfl⟩
        · rw [if_pos ha] at hps
          exact absurd hps (by simp)
    · rintro ⟨halg, v, hsig⟩
      refine ⟨{ key_id := mapGet (sigHeaderParts header) "keyid"
                algorithm := "ed25519", signature := v
                headers := match mapGet (sigHeaderParts header) "headers" with
                  | some h => splitWhitespace h.data
                  | none => [] }, ?_⟩
      simp only [parse_signature_header]
      rw [halg]
      dsimp only
      rw [if_neg (by simp), hsig]
  · intro ps hps
    simp only [parse_signature_header] at hps
    cases halg : mapGet (sigHeaderParts header) "algorithm" with
    | none =>
      rw [halg] at hps
      exact absurd hps (by simp)
    | some a =>
      rw [halg] at hps
      dsimp only at hps
      by_cases ha : a = "ed25519"
      · rw [if_neg (by simp [ha])] at hps
        cases hsig : mapGet (sigHeaderParts header) "signature" with
        | none =>
          rw [hsig] at hps
          exact absurd hps (by simp)
        | some v =>
          rw [hsig] at hps
          obtain rfl := ((Except.ok.injEq _ _).mp hps).symm
          exact ⟨ha, rfl, rfl, rfl⟩
      · rw [if_pos ha] at hps
        exact absurd hps (by simp)
  · intro seg l r hnc hsp
    rw [sigHeaderParts_append_segment header seg hnc, hsp]
    exact mapGet_mapInsert_self _ _ _

/-- Witness for `parse_signature_header_spec`: the last of two
`algorithm` parameters is the one retrieved. -/
theorem parse_signature_header_spec_witness :
    (',' ∉ ("algorithm=ed25519" : String).data) ∧
    mapGet (sigHeaderParts ("algorithm=zzz" ++ "," ++ "algorithm=ed25519"))
        (strToLower ⟨trimChars ("algorithm" : String).data⟩) =
      some (stripQuotes ⟨trimChars ("ed25519" : String).data⟩) :=
  ⟨by decide,
   (parse_signature_header_spec "algorithm=zzz").2.2.2 "algorithm=ed25519"
     ("algorithm" : String).data ("ed25519" : String).data (by decide)
     (by decide)⟩

/-- `Except` bind on a success passes the value on. -/
theorem bindE_ok {α β : Type} (a : α) (f : α → Except GwError β) :
    (Bind.bind (Except.ok a) f) = f a := rfl

/-- `Except` bind on an error short-circuits. -/
theorem bindE_err {α β : Type} (e : GwError) (f : α → Except GwError β) :
    (Bind.bind (Except.error e : Except GwError α) f) = Except.error e := rfl

/-- A concrete instantiation of the external primitives, used to
exercise the embedding on closed inputs: the hash is an injective
tagging, base64 decoding accepts exactly the text `B` (as 64 zero
bytes), the Ed25519 check accepts exactly the message `goodMsg` with
that signature, and the RFC 2822 parser accepts exactly `DATE` as
instant 0. -/
def testPrims (goodMsg : String) : Prims where
  sha256B64 := fun body => "sha." ++ body
  sha256Hex := fun key => "hex." ++ key
  b64decode := fun s => if s = "B" then some (List.replicate 64 0) else none
  edKeyOk := fun _ => true
  edVerify := fun _ msg sig =>
    msg == goodMsg && sig == List.replicate 64 0
  parseRfc2822 := fun s => if s = "DATE" then some 0 else none
  parseRfc3339 := fun _ => none

/-- A 64-character all-zero hex public key for closed examples. -/
def pk0 : String :=
  String.mk (List.replicate 64 '0')

/-- Every failure of `decode_public_key` is a `ConfigError`. -/
theorem decode_public_key_error_config (p : Prims) (pk : String) (e : GwError)
    (h : decode_public_key p pk = .error e) : ∃ msg, e = .ConfigError msg := by
  unfold decode_public_key at h
  cases hx : hexDecode pk with
  | none =>
    rw [hx] at h
    exact ⟨_, ((Except.error.injEq _ _).mp h).symm⟩
  | some bytes =>
    rw [hx] at h
    dsimp only at h
    split_ifs at h with h1 h2 <;>
      exact ⟨_, ((Except.error.injEq _ _).mp h).symm⟩

/-- Every failure of `parse_signature_header` is a `ProtocolError`. -/
theorem parse_signature_header_error_protocol (header : String) (e : GwError)
    (h : parse_signature_header header = .error e) :
    ∃ msg, e = .ProtocolError msg := by
  simp only [parse_signature_header] at h
  cases halg : mapGet (sigHeaderParts header) "algorithm" with
  | none =>
    rw [halg] at h
    exact ⟨_, ((Except.error.injEq _ _).mp h).symm⟩
  | some a =>
    rw [halg] at h
    dsimp only at h
    by_cases ha : a = "ed25519"
    · rw [if_neg (by simp [ha])] at h
      cases hsig : mapGet (sigHeaderParts header) "signature" with
      | none =>
        rw [hsig] at h
        exact ⟨_, ((Except.error.injEq _ _).mp h).symm⟩
      | some v =>
        rw [hsig] at h
        exact absurd h (by simp)
    · rw [if_pos ha] at h
      exact ⟨_, ((Except.error.injEq _ _).mp h).symm⟩

/-- `CacheRecord.crypto_checks` propagates a signature-header parse
error verbatim. -/
theorem crypto_checks_parse_err (p : Prims) (r : CacheRecord) (pk : String)
    (e : GwError) (h : parse_signature_header r.signature = .error e) :
    r.crypto_checks p pk = .error e := by
  simp only [CacheRecord.crypto_checks]
  rw [h, bindE_err]

/-- `CacheRecord.crypto_checks` propagates a public-key decode error
verbatim. -/
theorem crypto_checks_decode_err (p : Prims) (r : CacheRecord) (pk : String)
    (ps : ParsedSignatureHeader) (e : GwError)
    (h1 : parse_signature_header r.signature = .ok ps)
    (h2 : decode_public_key p pk = .error e) :
    r.crypto_checks p pk = .error e := by
  simp only [CacheRecord.crypto_checks]
  rw [h1, bindE_ok, h2, bindE_err]

/-- A failed Ed25519 re-check in `CacheRecord.crypto_checks` is
reported as `CacheTampered`. -/
theorem crypto_checks_ed_err (p : Prims) (r : CacheRecord) (pk : String)
    (ps : ParsedSignatureHeader) (key : List Nat)
    (h1 : parse_signature_header r.signature = .ok ps)
    (h2 : decode_public_key p pk = .ok key)
    (h3 : verify_ed25519 p ps.signature
        (build_signing_string "post" r.request_path r.host r.date r.digest)
        key ≠ .ok ()) :
    r.crypto_checks p pk = .error .CacheTampered := by
  simp only [CacheRecord.crypto_checks]
  rw [h1, bindE_ok, h2, bindE_ok]
  cases he : verify_ed25519 p ps.signature
      (build_signing_string "post" r.request_path r.host r.date r.digest)
      key with
  | error e =>
    dsimp only
    rw [bindE_err]
  | ok u => exact absurd (by cases u; exact he) h3

/-- A failed digest re-check in `CacheRecord.crypto_checks` is reported
as `CacheTampered`. -/
theorem crypto_checks_digest_err (p : Prims) (r : CacheRecord) (pk : String)
    (ps : ParsedSignatureHeader) (key : List Nat) (d : String)
    (h1 : parse_signature_header r.signature = .ok ps)
    (h2 : decode_public_key p pk = .ok key)
    (h3 : verify_ed25519 p ps.signature
        (build_signing_string "post" r.request_path r.host r.date r.digest)
        key = .ok ())
    (h4 : r.digest = some d)
    (h5 : verify_digest p r.body (some d) ≠ .ok ()) :
    r.crypto_checks p pk = .error .CacheTampered := by
  simp only [CacheRecord.crypto_checks]
  rw [h1, bindE_ok, h2, bindE_ok, h3]
  dsimp only
  rw [bindE_ok, h4]
  dsimp only
  cases hv : verify_digest p r.body (some d) with
  | error e => rfl
  | ok u => exact absurd (by cases u; exact hv) h5

/-- The crypto half of `CacheRecord.verify` succeeds when every step
does. -/
theorem crypto_checks_ok (p : Prims) (r : CacheRecord) (pk : String)
    (ps : ParsedSignatureHeader) (key : List Nat)
    (h1 : parse_signature_header r.signature = .ok ps)
    (h2 : decode_public_key p pk = .ok key)
    (h3 : verify_ed25519 p ps.signature
        (build_signing_string "post" r.request_path r.host r.date r.digest)
        key = .ok ())
    (h4 : ∀ d, r.digest = some d → verify_digest p r.body (some d) = .ok ()) :
    r.crypto_checks p pk = .ok () := by
  simp only [CacheRecord.crypto_checks]
  rw [h1, bindE_ok, h2, bindE_ok, h3]
  dsimp only
  rw [bindE_ok]
  cases hd : r.digest with
  | none => rfl
  | some d =>
    dsimp only
    rw [h4 d hd]

/-- `CacheRecord.verify` is the grace check once the crypto half
succeeded. -/
theorem cacheVerify_of_crypto_ok (p : Prims) (r : CacheRecord) (pk : String)
    (g : Nat) (n : Int) (hc : r.crypto_checks p pk = .ok ()) :
    CacheRecord.verify p r pk g n =
      (if n - r.cached_at > u64_as_i64 g then .error .CacheExpired
       else if n - r.cached_at < 0 then .error .CacheTampered
       else .ok ()) := by
  simp only [CacheRecord.verify]
  rw [hc, bindE_ok]
  rfl

/-- `CacheRecord.verify` propagates a crypto-half error verbatim. -/
theorem cacheVerify_of_crypto_err (p : Prims) (r : CacheRecord) (pk : String)
    (g : Nat) (n : Int) (e : GwError)
    (hc : r.crypto_checks p pk = .error e) :
    CacheRecord.verify p r pk g n = .error e := by
  simp only [CacheRecord.verify]
  rw [hc, bindE_err]

/-- Every error of `CacheRecord.crypto_checks` is a `ProtocolError`, a
`ConfigError` or `CacheTampered`. -/
theorem crypto_checks_error_kinds (p : Prims) (r : CacheRecord) (pk : String)
    (e : GwError) (h : r.crypto_checks p pk = .error e) :
    (∃ msg, e = .ProtocolError msg) ∨ (∃ msg, e = .ConfigError msg) ∨
      e = .CacheTampered := by
  simp only [CacheRecord.crypto_checks] at h
  cases hp : parse_signature_header r.signature with
  | error e1 =>
    rw [hp, bindE_err] at h
    obtain ⟨m, hm⟩ := parse_signature_header_error_protocol _ _ hp
    obtain rfl := ((Except.error.injEq _ _).mp h).symm
    exact Or.inl ⟨m, hm⟩
  | ok ps =>
    rw [hp, bindE_ok] at h
    cases hd : decode_public_key p pk with
    | error e1 =>
      rw [hd, bindE_err] at h
      obtain ⟨m, hm⟩ := decode_public_key_error_config p pk e1 hd
      obtain rfl := ((Except.error.injEq _ _).mp h).symm
      exact Or.inr (Or.inl ⟨m, hm⟩)
    | ok key =>
      rw [hd, bindE_ok] at h
      cases hv : verify_ed25519 p ps.signature
          (build_signing_string "post" r.request_path r.host r.date
            r.digest) key with
      | error e2 =>
        rw [hv] at h
        dsimp only at h
        rw [bindE_err] at h
        exact Or.inr (Or.inr ((Except.error.injEq _ _).mp h).symm)
      | ok u =>
        rw [hv] at h
        dsimp only at h
        rw [bindE_ok] at h
        cases hdg : r.digest with
        | none =>
          rw [hdg] at h
          exact absurd h (by simp [pure, Except.pure])
        | some d =>
          rw [hdg] at h
          dsimp only at h
          cases hvd : verify_digest p r.body (some d) with
          | error e3 =>
            rw [hvd] at h
            exact Or.inr (Or.inr ((Except.error.injEq _ _).mp h).symm)
          | ok u2 =>
            rw [hvd] at h
            exact absurd h (by simp)

/-- C4 counterexample: a cache record whose stored signature header does
not parse makes `CacheRecord.verify` return the parser's
`ProtocolError`, not `CacheTampered` as the claim requires. -/
theorem cacheVerify_parse_error_counterexample :
    CacheRecord.verify (testPrims "m")
        { date := "DATE", signature := "garbage", digest := none
          body := "b", cached_at := 0, request_path := "/p", host := "h" }
        pk0 86400 0 =
      .error (.ProtocolError "Missing algorithm in signature header") ∧
    CacheRecord.verify (testPrims "m")
        { date := "DATE", signature := "garbage", digest := none
          body := "b", cached_at := 0, request_path := "/p", host := "h" }
        pk0 86400 0 ≠ .error .CacheTampered :=
  ⟨by decide, by decide⟩

/-- C4 (amended): `CacheRecord.verify` never returns `SignatureInvalid`;
a failed Ed25519 re-check and a failed digest re-check are both reported
as `CacheTampered`; but a failure to parse the stored signature header
propagates as the parser's `ProtocolError`, and a failure to decode the
public key propagates as a `ConfigError`. -/
theorem cacheVerify_error_taxonomy (p : Prims) (r : CacheRecord)
    (public_key_hex : String) (offline_grace : Nat) (now : Int) :
    (CacheRecord.verify p r public_key_hex offline_grace now ≠
      .error .SignatureInvalid) ∧
    (∀ e, parse_signature_header r.signature = .error e →
      CacheRecord.verify p r public_key_hex offline_grace now = .error e ∧
      ∃ msg, e = .ProtocolError msg) ∧
    (∀ ps e, parse_signature_header r.signature = .ok ps →
      decode_public_key p public_key_hex = .error e →
      CacheRecord.verify p r public_key_hex offline_grace now = .error e ∧
      ∃ msg, e = .ConfigError msg) ∧
    (∀ ps key, parse_signature_header r.signature = .ok ps →
      decode_public_key p public_key_hex = .ok key →
      verify_ed25519 p ps.signature
          (build_signing_string "post" r.request_path r.host r.date
            r.digest) key ≠ .ok () →
      CacheRecord.verify p r public_key_hex offline_grace now =
        .error .CacheTampered) ∧
    (∀ ps key d, parse_signature_header r.signature = .ok ps →
      decode_public_key p public_key_hex = .ok key →
      verify_ed25519 p ps.signature
          (build_signing_string "post" r.request_path r.host r.date
            r.digest) key = .ok () →
      r.digest = some d → verify_digest p r.body (some d) ≠ .ok () →
      CacheRecord.verify p r public_key_hex offline_grace now =
        .error .CacheTampered) := by
  refine ⟨?_, ?_, ?_, ?_, ?_⟩
  · cases hcc : r.crypto_checks p public_key_hex with
    | error e =>
      rw [cacheVerify_of_crypto_err p r public_key_hex offline_grace now
        e hcc]
      rcases crypto_checks_error_kinds p r public_key_hex e hcc with
        ⟨m, rfl⟩ | ⟨m, rfl⟩ | rfl <;> simp
    | ok u =>
      cases u
      rw [cacheVerify_of_crypto_ok p r public_key_hex offline_grace now hcc]
      split_ifs <;> simp
  · intro e hp
    exact ⟨cacheVerify_of_crypto_err p r public_key_hex offline_grace now
      e (crypto_checks_parse_err p r public_key_hex e hp),
      parse_signature_header_error_protocol _ _ hp⟩
  · intro ps e hp hd
    exact ⟨cacheVerify_of_crypto_err p r public_key_hex offline_grace now
      e (crypto_checks_decode_err p r public_key_hex ps e hp hd),
      decode_public_key_error_config p public_key_hex e hd⟩
  · intro ps key hp hd hv
    exact cacheVerify_of_crypto_err p r public_key_hex offline_grace now
      _ (crypto_checks_ed_err p r public_key_hex ps key hp hd hv)
  · intro ps key d hp hd hv hdg hvd
    exact cacheVerify_of_crypto_err p r public_key_hex offline_grace now
      _ (crypto_checks_digest_err p r public_key_hex ps key d hp hd hv
        hdg hvd)

/-- Witness for `cacheVerify_error_taxonomy`: an unparseable stored
signature header surfaces as its `ProtocolError`. -/
theorem cacheVerify_error_taxonomy_witness :
    parse_signature_header "garbage" =
      .error (.ProtocolError "Missing algorithm in signature header") ∧
    CacheRecord.verify (testPrims "m")
        { date := "DATE", signature := "garbage", digest := none
          body := "b", cached_at := 0, request_path := "/p", host := "h" }
        pk0 86400 0 =
      .error (.ProtocolError "Missing algorithm in signature header") :=
  ⟨by decide,
   ((cacheVerify_error_taxonomy (testPrims "m")
       { date := "DATE", signature := "garbage", digest := none
         body := "b", cached_at := 0, request_path := "/p", host := "h" }
       pk0 86400 0).2.1 _ (by decide)).1⟩

/-- C6 counterexample: with `offline_grace = 2^63` seconds, the
`u64 as i64` cast inside `CacheRecord.verify` wraps to a negative grace
and a record of age 0 that passes every cryptographic check is rejected
as `CacheExpired` — although the very same record is accepted under the
smaller grace 86400, and the claim requires acceptance whenever
`0 ≤ age ≤ offline_grace`. -/
theorem cacheVerify_grace_overflow_counterexample :
    CacheRecord.verify
        (testPrims "(request-target): post /p\nhost: h\ndate: DATE")
        { date := "DATE", signature := "algorithm=ed25519, signature=B"
          digest := none, body := "b", cached_at := 0
          request_path := "/p", host := "h" } pk0 86400 0 = .ok () ∧
    CacheRecord.verify
        (testPrims "(request-target): post /p\nhost: h\ndate: DATE")
        { date := "DATE", signature := "algorithm=ed25519, signature=B"
          digest := none, body := "b", cached_at := 0
          request_path := "/p", host := "h" } pk0 (2 ^ 63) 0 =
      .error .CacheExpired :=
  ⟨by decide, by decide⟩

/-- C6 (amended): for every record whose cryptographic re-checks pass
and every `offline_grace` below `2^63` seconds (beyond which the
`u64 as i64` cast in the source wraps), with `age = now − cached_at` in
whole seconds: `verify` succeeds exactly when `0 ≤ age ≤ offline_grace`
(the boundary `age = offline_grace` is accepted), returns `CacheExpired`
exactly when `age > offline_grace`, and returns `CacheTampered` exactly
when `age < 0`. -/
theorem cacheVerify_grace_boundaries (p : Prims) (r : CacheRecord)
    (public_key_hex : String) (offline_grace : Nat) (now : Int)
    (hg : offline_grace < 2 ^ 63)
    (hc : r.crypto_checks p public_key_hex = .ok ()) :
    (CacheRecord.verify p r public_key_hex offline_grace now = .ok () ↔
      0 ≤ now - r.cached_at ∧
        now - r.cached_at ≤ (offline_grace : Int)) ∧
    (CacheRecord.verify p r public_key_hex offline_grace now =
        .error .CacheExpired ↔
      (offline_grace : Int) < now - r.cached_at) ∧
    (CacheRecord.verify p r public_key_hex offline_grace now =
        .error .CacheTampered ↔
      now - r.cached_at < 0) := by
  have hmod : offline_grace % 2 ^ 64 = offline_grace :=
    Nat.mod_eq_of_lt (lt_trans hg (by norm_num))
  have hcast : u64_as_i64 offline_grace = (offline_grace : Int) := by
    unfold u64_as_i64
    rw [hmod, if_pos hg]
  rw [cacheVerify_of_crypto_ok p r public_key_hex offline_grace now hc,
    hcast]
  split_ifs with h1 h2 <;>
    refine ⟨⟨fun hok1 => ?_, fun hok2 => ?_⟩,
      ⟨fun hex1 => ?_, fun hex2 => ?_⟩,
      ⟨fun htm1 => ?_, fun htm2 => ?_⟩⟩ <;>
    simp_all <;> omega

/-- Witness for `cacheVerify_grace_boundaries`: a concrete record whose
crypto checks pass is accepted at age 0 under grace 86400. -/
theorem cacheVerify_grace_boundaries_witness :
    (86400 < 2 ^ 63) ∧
    CacheRecord.crypto_checks
        (testPrims "(request-target): post /p\nhost: h\ndate: DATE")
        { date := "DATE", signature := "algorithm=ed25519, signature=B"
          digest := none, body := "b", cached_at := 0
          request_path := "/p", host := "h" } pk0 = .ok () ∧
    CacheRecord.verify
        (testPrims "(request-target): post /p\nhost: h\ndate: DATE")
        { date := "DATE", signature := "algorithm=ed25519, signature=B"
          digest := none, body := "b", cached_at := 0
          request_path := "/p", host := "h" } pk0 86400 0 = .ok () :=
  ⟨by decide, by decide,
   (cacheVerify_grace_boundaries
       (testPrims "(request-target): post /p\nhost: h\ndate: DATE")
       { date := "DATE", signature := "algorithm=ed25519, signature=B"
         digest := none, body := "b", cached_at := 0
         request_path := "/p", host := "h" } pk0 86400 0 (by decide)
       (by decide)).1.mpr ⟨by decide, by decide⟩⟩

/-- C5: within `validate_online` the cache write is the only cache
effect and comes last: whenever the online path returns an error the
stored cache state is unchanged, and whenever the stored state changed,
the transport call, `verify_response`, the body decode and the
access-and-usage checks all succeeded, the save I/O succeeded, the
result is the online success result, and the new state is exactly the
constructed record stored under the key hash. -/
theorem validateOnline_cache_write_last (p : Prims)
    (pj : String → Option KeygenValidateResponse) (cfg : GatewardenConfig)
    (transport : Except GwError KeygenResponse) (saveOutcome : Option String)
    (now : Int) (key_hash : String) (st : CacheState) :
    (∀ e, (validate_online p pj cfg transport saveOutcome now key_hash
        st).1 = .error e →
      (validate_online p pj cfg transport saveOutcome now key_hash st).2 =
        st) ∧
    ((validate_online p pj cfg transport saveOutcome now key_hash st).2 ≠
        st →
      ∃ response keygen_response caps,
        transport = .ok response ∧
        verify_response p response cfg.public_key_hex now = .ok () ∧
        pj response.body = some keygen_response ∧
        check_access_with_usage
            (LicenseState.from_keygen_response p keygen_response)
            cfg.required_entitlements 0 = .ok caps ∧
        saveOutcome = none ∧
        (validate_online p pj cfg transport saveOutcome now key_hash
            st).1 =
          .ok { valid :=
                  (LicenseState.from_keygen_response p keygen_response).valid
                state := LicenseState.from_keygen_response p keygen_response
                caps := caps, from_cache := false } ∧
        (validate_online p pj cfg transport saveOutcome now key_hash
            st).2 =
          storeUpdate st key_hash
            (CacheRecord.new (response.date.getD "")
              (response.signature.getD "") response.digest response.body
              response.request_path response.host now)) := by
  unfold validate_online
  cases htr : transport with
  | error e0 => exact ⟨fun e he => rfl, fun hne => absurd rfl hne⟩
  | ok response =>
    dsimp only
    cases hvr : verify_response p response cfg.public_key_hex now with
    | error e0 => exact ⟨fun e he => rfl, fun hne => absurd rfl hne⟩
    | ok u0 =>
      cases u0
      dsimp only
      cases hpj : pj response.body with
      | none => exact ⟨fun e he => rfl, fun hne => absurd rfl hne⟩
      | some kr =>
        dsimp only
        cases hca : check_access_with_usage
            (LicenseState.from_keygen_response p kr)
            cfg.required_entitlements 0 with
        | error e0 => exact ⟨fun e he => rfl, fun hne => absurd rfl hne⟩
        | ok caps =>
          dsimp only
          cases saveOutcome with
          | some msg => exact ⟨fun e he => rfl, fun hne => absurd rfl hne⟩
          | none =>
            refine ⟨fun e he => ?_, fun hne => ?_⟩
            · simp only [cache_save] at he
              exact absurd he (by simp)
            · exact ⟨response, kr, caps, rfl, hvr, hpj, hca, rfl, rfl, rfl⟩

/-- Witness for `validateOnline_cache_write_last`: a transport failure
leaves the (empty) cache state unchanged. -/
theorem validateOnline_cache_write_last_witness :
    (validate_online (testPrims "m") (fun _ => none)
        { app_name := "a", feature_name := "f", account_id := "acc"
          public_key_hex := pk0, required_entitlements := []
          user_agent_product := "u", cache_namespace := "ns"
          offline_grace := 60 }
        (.error (.KeygenTransport "t")) none 0 "kh" []).1 =
      .error (.KeygenTransport "t") ∧
    (validate_online (testPrims "m") (fun _ => none)
        { app_name := "a", feature_name := "f", account_id := "acc"
          public_key_hex := pk0, required_entitlements := []
          user_agent_product := "u", cache_namespace := "ns"
          offline_grace := 60 }
        (.error (.KeygenTransport "t")) none 0 "kh" []).2 = [] :=
  ⟨rfl,
   (validateOnline_cache_write_last (testPrims "m") (fun _ => none)
       { app_name := "a", feature_name := "f", account_id := "acc"
         public_key_hex := pk0, required_entitlements := []
         user_agent_product := "u", cache_namespace := "ns"
         offline_grace := 60 }
       (.error (.KeygenTransport "t")) none 0 "kh" []).1
     (.KeygenTransport "t") rfl⟩

/-- C1: for every non-empty license key, the offline fallback of
`validate_key` consults the cached record exactly when the online
attempt failed with `KeygenTransport`: any other online error is
returned unchanged for every possible cache-load outcome (the load
result is never consulted); a transport error with no cached record
returns the original transport error; and on a transport error the load
outcome is consulted — a failing load surfaces its own `CacheIO`
error. -/
theorem validateKey_offline_fallback (p : Prims)
    (pj : String → Option KeygenValidateResponse) (cfg : GatewardenConfig)
    (transport : Except GwError KeygenResponse) (saveOutcome : Option String)
    (now : Int) (license_key : String) (st : CacheState)
    (hk : ¬ license_key = "") :
    (∀ e, ¬ e.isTransport = true →
      (validate_online p pj cfg transport saveOutcome now
          (hash_license_key p license_key) st).1 = .error e →
      ∀ loadResult,
        (validate_key p pj cfg transport saveOutcome loadResult now
            license_key st).1 = .error e) ∧
    (∀ m,
      (validate_online p pj cfg transport saveOutcome now
          (hash_license_key p license_key) st).1 =
        .error (.KeygenTransport m) →
      (validate_key p pj cfg transport saveOutcome (.ok none) now
          license_key st).1 = .error (.KeygenTransport m)) ∧
    (∀ m io,
      (validate_online p pj cfg transport saveOutcome now
          (hash_license_key p license_key) st).1 =
        .error (.KeygenTransport m) →
      (validate_key p pj cfg transport saveOutcome
          (.error (.CacheIo io)) now license_key st).1 =
        .error (.CacheIo io)) := by
  have hfalse : ∀ e : GwError, ¬ e.isTransport = true →
      e.isTransport = false := by
    intro e he
    cases hb : e.isTransport with
    | false => rfl
    | true => exact absurd hb he
  refine ⟨?_, ?_, ?_⟩
  · intro e he hvo1 loadResult
    unfold validate_key
    rw [if_neg hk]
    dsimp only
    cases hvo : validate_online p pj cfg transport saveOutcome now
        (hash_license_key p license_key) st with
    | mk res st2 =>
      rw [hvo] at hvo1
      dsimp only at hvo1
      subst hvo1
      dsimp only
      unfold validate_offline
      rw [hfalse e he]
      rfl
  · intro m hvo1
    unfold validate_key
    rw [if_neg hk]
    dsimp only
    cases hvo : validate_online p pj cfg transport saveOutcome now
        (hash_license_key p license_key) st with
    | mk res st2 =>
      rw [hvo] at hvo1
      dsimp only at hvo1
      subst hvo1
      rfl
  · intro m io hvo1
    unfold validate_key
    rw [if_neg hk]
    dsimp only
    cases hvo : validate_online p pj cfg transport saveOutcome now
        (hash_license_key p license_key) st with
    | mk res st2 =>
      rw [hvo] at hvo1
      dsimp only at hvo1
      subst hvo1
      rfl

/-- Witness for `validateKey_offline_fallback`: a `SignatureMissing`
online failure is returned unchanged even when a cached record exists,
and a transport failure with an absent cache record surfaces
unchanged. -/
theorem validateKey_offline_fallback_witness :
    (¬ (GwError.SignatureMissing).isTransport = true) ∧
    (validate_online (testPrims "m") (fun _ => none)
        { app_name := "a", feature_name := "f", account_id := "acc"
          public_key_hex := pk0, required_entitlements := []
          user_agent_product := "u", cache_namespace := "ns"
          offline_grace := 60 }
        (.ok { status := 200, date := none, signature := none
               digest := none, body := "b", request_path := "/p"
               host := "h" }) none 0 (hash_license_key (testPrims "m") "K")
        []).1 = .error .SignatureMissing ∧
    (validate_key (testPrims "m") (fun _ => none)
        { app_name := "a", feature_name := "f", account_id := "acc"
          public_key_hex := pk0, required_entitlements := []
          user_agent_product := "u", cache_namespace := "ns"
          offline_grace := 60 }
        (.ok { status := 200, date := none, signature := none
               digest := none, body := "b", request_path := "/p"
               host := "h" }) none
        (.ok (some { date := "DATE"
                     signature := "algorithm=ed25519, signature=B"
                     digest := none, body := "b", cached_at := 0
                     request_path := "/p", host := "h" })) 0 "K" []).1 =
      .error .SignatureMissing :=
  ⟨by decide, by decide,
   (validateKey_offline_fallback (testPrims "m") (fun _ => none)
       { app_name := "a", feature_name := "f", account_id := "acc"
         public_key_hex := pk0, required_entitlements := []
         user_agent_product := "u", cache_namespace := "ns"
         offline_grace := 60 }
       (.ok { status := 200, date := none, signature := none
              digest := none, body := "b", request_path := "/p"
              host := "h" }) none 0 "K" [] (by decide)).1
     .SignatureMissing (by decide) (by decide)
     (.ok (some { date := "DATE"
                  signature := "algorithm=ed25519, signature=B"
                  digest := none, body := "b", cached_at := 0
                  request_path := "/p", host := "h" }))⟩

/-- The u64→i64 cast is value-preserving below `2^63`. -/
theorem u64_as_i64_of_lt (g : Nat) (hg : g < 2 ^ 63) :
    u64_as_i64 g = (g : Int) := by
  unfold u64_as_i64
  rw [Nat.mod_eq_of_lt (lt_trans hg (by norm_num)), if_pos hg]

/-- A record whose crypto checks pass verifies at its own capture
instant, for any grace below `2^63` seconds. -/
theorem cacheVerify_ok_age_zero (p : Prims) (R : CacheRecord) (pk : String)
    (g : Nat) (hg : g < 2 ^ 63) (hcc : R.crypto_checks p pk = .ok ()) :
    CacheRecord.verify p R pk g R.cached_at = .ok () := by
  rw [cacheVerify_of_crypto_ok p R pk g R.cached_at hcc,
    u64_as_i64_of_lt g hg]
  have h0 : R.cached_at - R.cached_at = 0 := sub_self _
  rw [h0, if_neg (by omega), if_neg (by omega)]

/-- Inversion of a successful digest check. -/
theorem verify_digest_ok_inv (p : Prims) (b dg : String)
    (h : verify_digest p b (some dg) = .ok ()) :
    ∃ exp, parse_digest_header dg = some exp ∧ sha256_b64 p b = exp := by
  unfold verify_digest at h
  dsimp only at h
  cases hp : parse_digest_header dg with
  | none =>
    rw [hp] at h
    exact absurd h (by simp)
  | some exp =>
    rw [hp] at h
    try dsimp only at h
    split_ifs at h with hne
    exact ⟨exp, rfl, not_ne_iff.mp hne⟩

/-- A body whose hash differs from that of a body passing the digest
check fails the digest check. -/
theorem verify_digest_mismatch (p : Prims) (b b2 dg : String)
    (h : verify_digest p b (some dg) = .ok ())
    (hne : p.sha256B64 b2 ≠ p.sha256B64 b) :
    verify_digest p b2 (some dg) = .error .DigestMismatch := by
  obtain ⟨exp, hp, hsha⟩ := verify_digest_ok_inv p b dg h
  unfold verify_digest
  dsimp only
  rw [hp]
  try dsimp only
  rw [if_pos (fun hc => hne (hc.trans hsha.symm))]

/-- Inversion of a successful `verify_response`: both headers are
present and every step of the pipeline succeeded. -/
theorem verify_response_ok_inv (p : Prims) (r : KeygenResponse)
    (pk : String) (now : Int)
    (h : verify_response p r pk now = .ok ()) :
    ∃ sig date, r.signature = some sig ∧ r.date = some date ∧
      verify_digest p r.body r.digest = .ok () ∧
      ∃ ps, parse_signature_header sig = .ok ps ∧
        ∃ key, decode_public_key p pk = .ok key ∧
          verify_ed25519 p ps.signature
            (build_signing_string "post" r.request_path r.host date
              r.digest) key = .ok () := by
  unfold verify_response at h
  cases hs : r.signature with
  | none =>
    rw [hs] at h
    try dsimp only at h
    rw [bindE_err] at h
    exact absurd h (by simp)
  | some sig =>
    rw [hs] at h
    try dsimp only at h
    rw [bindE_ok] at h
    cases hd : r.date with
    | none =>
      rw [hd] at h
      try dsimp only at h
      rw [bindE_err] at h
      exact absurd h (by simp)
    | some date =>
      rw [hd] at h
      try dsimp only at h
      rw [bindE_ok] at h
      cases hvd : verify_digest p r.body r.digest with
      | error e =>
        rw [hvd, bindE_err] at h
        exact absurd h (by simp)
      | ok u =>
        cases u
        rw [hvd, bindE_ok] at h
        cases hps : parse_signature_header sig with
        | error e =>
          rw [hps, bindE_err] at h
          exact absurd h (by simp)
        | ok ps =>
          rw [hps, bindE_ok] at h
          cases hk : decode_public_key p pk with
          | error e =>
            rw [hk, bindE_err] at h
            exact absurd h (by simp)
          | ok key =>
            rw [hk, bindE_ok] at h
            try dsimp only at h
            cases hv : verify_ed25519 p ps.signature
                (build_signing_string "post" r.request_path r.host date
                  r.digest) key with
            | error e =>
              rw [hv, bindE_err] at h
              exact absurd h (by simp)
            | ok u2 =>
              cases u2
              exact ⟨sig, date, rfl, rfl, rfl, ps, hps, key, rfl, hv⟩

/-- C2 counterexample: a response without a digest header accepted by
`verify_response` yields a cache record whose body can be replaced and
still verify successfully (the claim requires `CacheTampered`), and
whose signature field replaced by an unparseable value yields
`ProtocolError`, not `CacheTampered`. -/
theorem cacheRecord_mutation_counterexample :
    verify_response
        (testPrims "(request-target): post /p\nhost: h\ndate: DATE")
        { status := 200, date := some "DATE"
          signature := some "algorithm=ed25519, signature=B"
          digest := none, body := "b", request_path := "/p", host := "h" }
        pk0 0 = .ok () ∧
    CacheRecord.verify
        (testPrims "(request-target): post /p\nhost: h\ndate: DATE")
        { CacheRecord.new "DATE" "algorithm=ed25519, signature=B" none "b"
            "/p" "h" 0 with body := "EVIL" } pk0 86400 0 = .ok () ∧
    CacheRecord.verify
        (testPrims "(request-target): post /p\nhost: h\ndate: DATE")
        { CacheRecord.new "DATE" "algorithm=ed25519, signature=B" none "b"
            "/p" "h" 0 with signature := "garbage" } pk0 86400 0 =
      .error (.ProtocolError "Missing algorithm in signature header") :=
  ⟨by decide, by decide, by decide⟩

/-- C2 (amended): for every response accepted by `verify_response` and
every grace below `2^63` seconds, the record the manager constructs from
the response's date, signature, digest, body, request path and host
(with `cached_at` the save instant) verifies at the save instant; and
mutations are detected exactly to the extent the stored artifacts cover
them: replacing the body when a digest is present and the body's hash
changes yields `CacheTampered`; replacing the body when no digest is
present is undetected; replacing the date or the digest either leaves
the record verifying or yields `CacheTampered`; replacing the signature
additionally admits a `ProtocolError` when the new header does not
parse. -/
theorem cacheRecord_roundtrip_and_mutations (p : Prims)
    (r : KeygenResponse) (pk : String) (now tsave : Int) (grace : Nat)
    (hg : grace < 2 ^ 63)
    (hacc : verify_response p r pk now = .ok ()) :
    (CacheRecord.verify p
        (CacheRecord.new (r.date.getD "") (r.signature.getD "") r.digest
          r.body r.request_path r.host tsave) pk grace tsave = .ok ()) ∧
    (∀ b2 dg, r.digest = some dg → p.sha256B64 b2 ≠ p.sha256B64 r.body →
      CacheRecord.verify p
          { CacheRecord.new (r.date.getD "") (r.signature.getD "") r.digest
          r.body r.request_path r.host tsave with
            body := b2 } pk grace tsave = .error .CacheTampered) ∧
    (∀ b2, r.digest = none →
      CacheRecord.verify p
          { CacheRecord.new (r.date.getD "") (r.signature.getD "") r.digest
          r.body r.request_path r.host tsave with
            body := b2 } pk grace tsave = .ok ()) ∧
    (∀ d2,
      CacheRecord.verify p
          { CacheRecord.new (r.date.getD "") (r.signature.getD "") r.digest
          r.body r.request_path r.host tsave with
            date := d2 } pk grace tsave = .ok () ∨
      CacheRecord.verify p
          { CacheRecord.new (r.date.getD "") (r.signature.getD "") r.digest
          r.body r.request_path r.host tsave with
            date := d2 } pk grace tsave = .error .CacheTampered) ∧
    (∀ s2,
      CacheRecord.verify p
          { CacheRecord.new (r.date.getD "") (r.signature.getD "") r.digest
          r.body r.request_path r.host tsave with
            signature := s2 } pk grace tsave = .ok () ∨
      CacheRecord.verify p
          { CacheRecord.new (r.date.getD "") (r.signature.getD "") r.digest
          r.body r.request_path r.host tsave with
            signature := s2 } pk grace tsave = .error .CacheTampered ∨
      ∃ m, CacheRecord.verify p
          { CacheRecord.new (r.date.getD "") (r.signature.getD "") r.digest
          r.body r.request_path r.host tsave with
            signature := s2 } pk grace tsave =
        .error (.ProtocolError m)) ∧
    (∀ dg2,
      CacheRecord.verify p
          { CacheRecord.new (r.date.getD "") (r.signature.getD "") r.digest
          r.body r.request_path r.host tsave with
            digest := some dg2 } pk grace tsave = .ok () ∨
      CacheRecord.verify p
          { CacheRecord.new (r.date.getD "") (r.signature.getD "") r.digest
          r.body r.request_path r.host tsave with
            digest := some dg2 } pk grace tsave =
        .error .CacheTampered) := by
  obtain ⟨sig, date, hs, hd, hvd, ps, hps, key, hk, hv⟩ :=
    verify_response_ok_inv p r pk now hacc
  set R := CacheRecord.new (r.date.getD "") (r.signature.getD "") r.digest
          r.body r.request_path r.host tsave with hR
  have hRsig : R.signature = sig := by rw [hR, hs]; rfl
  have hRdate : R.date = date := by rw [hR, hd]; rfl
  have hRdig : R.digest = r.digest := rfl
  have hRbody : R.body = r.body := rfl
  have hRpath : R.request_path = r.request_path := rfl
  have hRhost : R.host = r.host := rfl
  have hparseR : parse_signature_header R.signature = .ok ps := by
    rw [hRsig]; exact hps
  have hedR : verify_ed25519 p ps.signature
      (build_signing_string "post" R.request_path R.host R.date R.digest)
      key = .ok () := by
    rw [hRdate, hRdig, hRpath, hRhost]; exact hv
  have hdigR : ∀ d, R.digest = some d →
      verify_digest p R.body (some d) = .ok () := by
    intro d hdg
    rw [hRbody, ← (hRdig.symm.trans hdg)]
    exact hvd
  have hccR : R.crypto_checks p pk = .ok () :=
    crypto_checks_ok p R pk ps key hparseR hk hedR hdigR
  refine ⟨?_, ?_, ?_, ?_, ?_, ?_⟩
  · exact cacheVerify_ok_age_zero p R pk grace hg hccR
  · intro b2 dg hdg hne
    have hdg2 : ({ R with body := b2 } : CacheRecord).digest = some dg :=
      hRdig.trans hdg
    have hfail : verify_digest p b2 (some dg) = .error .DigestMismatch := by
      refine verify_digest_mismatch p r.body b2 dg ?_ hne
      rw [← hdg]
      exact hvd
    exact cacheVerify_of_crypto_err p _ pk grace tsave _
      (crypto_checks_digest_err p _ pk ps key dg hparseR hk hedR hdg2
        (by
          show verify_digest p b2 (some dg) ≠ .ok ()
          rw [hfail]
          simp))
  · intro b2 hnone
    have hcc2 : ({ R with body := b2 } : CacheRecord).crypto_checks p pk =
        .ok () :=
      crypto_checks_ok p _ pk ps key hparseR hk hedR
        (fun d hdg => by
          have hdg2 : (none : Option String) = some d := by
            rw [← hnone]
            exact hRdig.symm.trans hdg
          exact Option.noConfusion hdg2)
    exact cacheVerify_ok_age_zero p _ pk grace hg hcc2
  · intro d2
    cases hv2 : verify_ed25519 p ps.signature
        (build_signing_string "post" R.request_path R.host d2 R.digest)
        key with
    | ok u =>
      cases u
      refine Or.inl (cacheVerify_ok_age_zero p _ pk grace hg
        (crypto_checks_ok p _ pk ps key hparseR hk hv2 hdigR))
    | error e =>
      refine Or.inr (cacheVerify_of_crypto_err p _ pk grace tsave _
        (crypto_checks_ed_err p _ pk ps key hparseR hk
          (by
            show verify_ed25519 p ps.signature
                (build_signing_string "post" R.request_path R.host d2
                  R.digest) key ≠ .ok ()
            rw [hv2]
            simp)))
  · intro s2
    cases hps2 : parse_signature_header s2 with
    | error e =>
      obtain ⟨m, hm⟩ := parse_signature_header_error_protocol s2 e hps2
      refine Or.inr (Or.inr ⟨m, ?_⟩)
      rw [← hm]
      exact cacheVerify_of_crypto_err p _ pk grace tsave e
        (crypto_checks_parse_err p _ pk e hps2)
    | ok ps2 =>
      cases hv2 : verify_ed25519 p ps2.signature
          (build_signing_string "post" R.request_path R.host R.date
            R.digest) key with
      | ok u =>
        cases u
        refine Or.inl (cacheVerify_ok_age_zero p _ pk grace hg
          (crypto_checks_ok p _ pk ps2 key hps2 hk hv2 hdigR))
      | error e =>
        refine Or.inr (Or.inl (cacheVerify_of_crypto_err p _ pk grace
          tsave _ (crypto_checks_ed_err p _ pk ps2 key hps2 hk
            (by
              show verify_ed25519 p ps2.signature
                  (build_signing_string "post" R.request_path R.host
                    R.date R.digest) key ≠ .ok ()
              rw [hv2]
              simp))))
  · intro dg2
    cases hv2 : verify_ed25519 p ps.signature
        (build_signing_string "post" R.request_path R.host R.date
          (some dg2)) key with
    | error e =>
      refine Or.inr (cacheVerify_of_crypto_err p _ pk grace tsave _
        (crypto_checks_ed_err p _ pk ps key hparseR hk
          (by
            show verify_ed25519 p ps.signature
                (build_signing_string "post" R.request_path R.host R.date
                  (some dg2)) key ≠ .ok ()
            rw [hv2]
            simp)))
    | ok u =>
      cases u
      cases hvd2 : verify_digest p R.body (some dg2) with
      | ok u2 =>
        cases u2
        refine Or.inl (cacheVerify_ok_age_zero p _ pk grace hg
          (crypto_checks_ok p _ pk ps key hparseR hk hv2
            (fun d hdg => by
              have hdg2 : some dg2 = some d := hdg
              cases hdg2
              exact hvd2)))
      | error e =>
        refine Or.inr (cacheVerify_of_crypto_err p _ pk grace tsave _
          (crypto_checks_digest_err p _ pk ps key dg2 hparseR hk hv2 rfl
            (by
              show verify_digest p R.body (some dg2) ≠ .ok ()
              rw [hvd2]
              simp)))

/-- Witness for `cacheRecord_roundtrip_and_mutations`: a concrete
accepted response round-trips into a record that verifies at the save
instant. -/
theorem cacheRecord_roundtrip_and_mutations_witness :
    (86400 < 2 ^ 63) ∧
    verify_response
        (testPrims "(request-target): post /p\nhost: h\ndate: DATE")
        { status := 200, date := some "DATE"
          signature := some "algorithm=ed25519, signature=B"
          digest := none, body := "b", request_path := "/p", host := "h" }
        pk0 0 = .ok () ∧
    CacheRecord.verify
        (testPrims "(request-target): post /p\nhost: h\ndate: DATE")
        (CacheRecord.new
          (({ status := 200, date := some "DATE"
              signature := some "algorithm=ed25519, signature=B"
              digest := none, body := "b", request_path := "/p"
              host := "h" } : KeygenResponse).date.getD "")
          (({ status := 200, date := some "DATE"
              signature := some "algorithm=ed25519, signature=B"
              digest := none, body := "b", request_path := "/p"
              host := "h" } : KeygenResponse).signature.getD "") none "b"
          "/p" "h" 5) pk0 86400 5 = .ok () :=
  ⟨by decide, by decide,
   (cacheRecord_roundtrip_and_mutations
       (testPrims "(request-target): post /p\nhost: h\ndate: DATE")
       { status := 200, date := some "DATE"
         signature := some "algorithm=ed25519, signature=B"
         digest := none, body := "b", request_path := "/p", host := "h" }
       pk0 0 5 86400 (by decide) (by decide)).1⟩

end Gatewarden
